import Mathlib

/-!
Verification development for the Zoho Debit Note pipeline
(`modules/data_processor.py`, `modules/interest_calculator.py`,
`modules/debit_note_generator.py`).

The pandas DataFrames are shallowly embedded as lists of records; each
column of the relevant tables becomes a field of a record type.  Numeric
columns (floats in pandas) are modelled as exact rationals `ℚ`; the Age
column, integer valued per the data model, as `ℤ`.  `groupby` (which
sorts its keys ascending) is modelled as summation over the sorted
deduplicated key list, and numpy rounding as round-half-to-even on `ℚ`.
String columns are Lean `String`s; the element-wise string cleaning
operations of `DataProcessor` are modelled directly on the character
lists so that all definitions evaluate inside the kernel.

Two aspects of the generator need care.  First, the interest table
emitted by `InterestCalculator.select_final_columns` names its
salesperson column `Sale Person`, while
`DebitNoteGenerator.group_by_customer` groups by `Sales person`; pandas
therefore raises `KeyError('Sales person')` on every interest table the
app pipes into the generator.  The generator's input is modelled as a
frame carrying its salesperson column name, and `generate_debit_notes`
returns `Except`, erroring unless that name is `Sales person`.  Second,
the final `sort_values(by='Customer ID')` uses pandas' unstable default
quicksort; the model sorts with `List.insertionSort` (one admissible
outcome) and the theorems only assert facts that hold for every
permutation sorted by customer id, restricting statements about
positions among equal customer ids to inputs where all sorts agree.
-/

namespace ZohoDebitNote

/-! Character-list helpers shared by the cleaning functions.  These model
the elementwise behaviour of pandas `.str.replace(..., regex=False)` and
`.str.strip()` on a single cell. -/

/-- Left-to-right removal of every non-overlapping occurrence of `pat`
from a character list, with explicit fuel so that the recursion is
structural (the fuel is instantiated with the length of the list, which
always suffices). -/
def removeAllAux (pat : List Char) : Nat → List Char → List Char
  | _, [] => []
  | 0, l => l
  | fuel + 1, c :: cs =>
    if pat.isPrefixOf (c :: cs) && !pat.isEmpty then
      removeAllAux pat fuel ((c :: cs).drop pat.length)
    else
      c :: removeAllAux pat fuel cs

/-- Model of `Series.str.replace(pat, '', regex=False)` on one cell. -/
def removeAll (pat s : String) : String :=
  (removeAllAux pat.data s.data.length s.data).asString

/-- Model of `Series.str.strip()` on one cell: drop whitespace from both
ends. -/
def stripStr (s : String) : String :=
  (((s.data.dropWhile Char.isWhitespace).reverse.dropWhile Char.isWhitespace).reverse).asString

/-- Numeric value of a list of decimal digit characters. -/
def digitsToNat (l : List Char) : Nat :=
  l.foldl (fun n c => n * 10 + (c.toNat - 48)) 0

/-- Result of scanning a decimal numeral: sign, integer part, fractional
digits value and fractional length.  Splitting the scan (pure character
and `Nat` work) from the rational valuation keeps the scanner fully
evaluable by `decide`. -/
structure DecScan where
  neg : Bool
  intPart : Nat
  fracPart : Nat
  fracLen : Nat
deriving DecidableEq, Repr

/-- Scan the digits of `cs` (no sign): digits, then optionally a dot and
digits. -/
def scanDecimalAux (neg : Bool) (cs : List Char) : Option DecScan :=
  let ip := cs.takeWhile Char.isDigit
  let rest := cs.dropWhile Char.isDigit
  if ip.isEmpty then none
  else
    match rest with
    | [] => some ⟨neg, digitsToNat ip, 0, 0⟩
    | '.' :: frac =>
      if frac.all Char.isDigit then
        some ⟨neg, digitsToNat ip, digitsToNat frac, frac.length⟩
      else none
    | _ => none

/-- Scan a decimal numeral with an optional leading minus sign. -/
def scanDecimal (s : String) : Option DecScan :=
  match s.data with
  | '-' :: rest => scanDecimalAux true rest
  | cs => scanDecimalAux false cs

/-- Rational value of a scanned decimal numeral. -/
def decValue (d : DecScan) : ℚ :=
  let q : ℚ := (d.intPart : ℚ) + (d.fracPart : ℚ) / (10 : ℚ) ^ d.fracLen
  if d.neg then -q else q

/-- Model of `pd.to_numeric(..., errors='coerce')` on one cell for plain
decimal numerals: an optional minus sign, digits, and an optional
fractional part; anything else coerces to `none` (pandas `NaN`). -/
def parseDecimal (s : String) : Option ℚ :=
  (scanDecimal s).map decValue

/-! Elementwise models of the `DataProcessor` cleaning methods. -/

/-- Elementwise action of `DataProcessor.clean_currency_column` with the
default `fill_na = 0`: the source removes the three-character sequence
"â‚¹" (a mojibake rendering of the rupee sign, as written in the Python
source) and commas, strips whitespace, and coerces parse failures
to `0`. -/
def clean_currency_value (x : String) : ℚ :=
  match parseDecimal (stripStr (removeAll "," (removeAll "â‚¹" x))) with
  | some q => q
  | none => 0

/-- Elementwise action of `DataProcessor.clean_age_column`: remove the
substring " Days", strip, parse; rows whose Type is
"Customer Opening Balance" get the configured override age regardless of
the parse result.  (The source parses first and then overwrites the
opening-balance rows; the result is the same value per cell.) -/
def clean_age_value (typ raw : String) (openingBalanceAge : ℚ) : Option ℚ :=
  if typ = "Customer Opening Balance" then some openingBalanceAge
  else parseDecimal (stripStr (removeAll " Days" raw))

/-! Rounding.  `Series.round(n)` and `Series.round()` use numpy's
round-half-to-even; modelled exactly on `ℚ`. -/

/-- Round to the nearest integer, ties to the even integer
(numpy / pandas `round` semantics). -/
def roundHalfEven (q : ℚ) : ℤ :=
  let f : ℤ := ⌊q⌋
  if q - f < 1 / 2 then f
  else if 1 / 2 < q - f then f + 1
  else if f % 2 = 0 then f else f + 1

/-- Model of `Series.round(4)`: round half-to-even at the fourth decimal
place. -/
def round4 (q : ℚ) : ℚ :=
  (roundHalfEven (q * 10000) : ℚ) / 10000

/-! Data model for the interest calculator.  One row of the cleaned
table, with the columns `InterestCalculator` reads; currency columns are
exact rationals, `Age` is integer valued (the data-model invariant after
cleaning; rows whose age failed to parse are `NaN` in pandas, fail every
strict comparison, and hence can never enter the filtered table that the
calculator's downstream steps see). -/

structure CleanRow where
  region : String
  areaName : String
  market : String
  customerName : String
  customerNumber : Nat
  date : String
  transactionNo : String
  typ : String
  status : String
  dueDate : String
  amount : ℚ
  balanceDue : ℚ
  age : ℤ
  salePerson : String
deriving DecidableEq, Repr

/-- One row of the interest detail table: the `CleanRow` columns kept by
`InterestCalculator.select_final_columns` plus the derived columns, with
the source's column spellings (`Due days`, `Previous interst`,
`interst working`, `per day interst%`, `working interst in %`,
`interest amount`, `Sale Person`). -/
structure InterestRow where
  region : String
  areaName : String
  market : String
  customerName : String
  customerNumber : Nat
  date : String
  transactionNo : String
  typ : String
  status : String
  dueDate : String
  amount : ℚ
  balanceDue : ℚ
  age : ℤ
  dueDays : ℤ
  previousInterst : ℤ
  interstWorking : ℤ
  perDayPct : ℚ
  workingPct : ℚ
  interestAmount : ℚ
  salePerson : String
deriving DecidableEq, Repr

/-- Configuration taken by `InterestCalculator.__init__` (defaults
`0.06`, `150`, `31`).  The constructor stores the three parameters and
performs no validation. -/
structure InterestConfig where
  perDayRate : ℚ
  dueDaysThreshold : ℤ
  maxWorkingDays : ℤ
deriving DecidableEq, Repr

/-- `InterestCalculator.filter_by_age`: keep the rows whose `Age`
strictly exceeds the due-days threshold. -/
def filter_by_age (c : InterestConfig) (df : List CleanRow) : List CleanRow :=
  df.filter fun r => c.dueDaysThreshold < r.age

/-- The row-wise effect of `calculate_working_days`,
`calculate_interest_percentage` and `calculate_interest_amount`, which
successively append the derived columns:
`Due days = threshold`, `interst working = min (Age - threshold) max`,
`Previous interst = (Age - threshold) - interst working`,
`per day interst% = rate`, `working interst in % = interst working * rate`,
`interest amount = round4 (Balance Due * (working interst in % / 100))`. -/
def interestRowOf (c : InterestConfig) (r : CleanRow) : InterestRow :=
  let daysOverdue : ℤ := r.age - c.dueDaysThreshold
  let working : ℤ := min daysOverdue c.maxWorkingDays
  { region := r.region
    areaName := r.areaName
    market := r.market
    customerName := r.customerName
    customerNumber := r.customerNumber
    date := r.date
    transactionNo := r.transactionNo
    typ := r.typ
    status := r.status
    dueDate := r.dueDate
    amount := r.amount
    balanceDue := r.balanceDue
    age := r.age
    dueDays := c.dueDaysThreshold
    previousInterst := daysOverdue - working
    interstWorking := working
    perDayPct := c.perDayRate
    workingPct := (working : ℚ) * c.perDayRate
    interestAmount := round4 (r.balanceDue * (((working : ℚ) * c.perDayRate) / 100))
    salePerson := r.salePerson }

/-! String comparison.  pandas sorts string columns by code-point
lexicographic order; modelled by a structural comparator on the
character lists (Mathlib's `String` order is defined through a
well-founded recursion which the kernel cannot evaluate, so the model
uses its own comparator). -/

/-- Three-way code-point lexicographic comparison of character lists. -/
def charListCmp : List Char → List Char → Ordering
  | [], [] => .eq
  | [], _ :: _ => .lt
  | _ :: _, [] => .gt
  | a :: as, b :: bs =>
    if a < b then .lt else if b < a then .gt else charListCmp as bs

/-- Three-way lexicographic comparison of strings. -/
def strCmp (a b : String) : Ordering :=
  charListCmp a.data b.data

/-- The sort relation used for `df.sort_values('Customer Name')`. -/
def nameLe (a b : CleanRow) : Prop :=
  strCmp a.customerName b.customerName ≠ Ordering.gt

instance : DecidableRel nameLe := fun a b =>
  inferInstanceAs (Decidable (strCmp a.customerName b.customerName ≠ Ordering.gt))

/-- `InterestCalculator.calculate_interest`: filter by age, sort by
customer name (modelled as a stable sort), append the derived columns,
and project to the final column set (the projection is the type
`InterestRow` itself). -/
def calculate_interest (c : InterestConfig) (df : List CleanRow) : List InterestRow :=
  ((filter_by_age c df).insertionSort nameLe).map (interestRowOf c)

/-! A small framework of lawful three-way comparators, used to give the
`groupby` key its pandas ordering (lexicographic on the key tuple) with
a comparator the kernel can evaluate. -/

/-- Lexicographic composition of two comparators. -/
def cmpThen (c1 c2 : α → α → Ordering) (a b : α) : Ordering :=
  match c1 a b with
  | .eq => c2 a b
  | o => o

/-- Compare through a projection. -/
def liftCmp (cmp : β → β → Ordering) (f : α → β) (a b : α) : Ordering :=
  cmp (f a) (f b)

/-- Three-way comparison of naturals. -/
def natCmp (a b : Nat) : Ordering :=
  if a < b then .lt else if b < a then .gt else .eq

/-- The properties of a comparator needed for sorting: antisymmetry of
the induced order, transitivity of strict comparison, and congruence of
comparison along `eq`. -/
structure LawfulCmp (cmp : α → α → Ordering) : Prop where
  swap_eq : ∀ a b, cmp b a = (cmp a b).swap
  lt_trans : ∀ {a b c}, cmp a b = .lt → cmp b c = .lt → cmp a c = .lt
  congr_left : ∀ {a b}, cmp a b = .eq → ∀ c, cmp a c = cmp b c

/-! Data model for the debit note generator. -/

/-- The composite `groupby` key of `DebitNoteGenerator.group_by_customer`:
the values of the columns `Customer Number`, `Customer Name`,
`Area Name`, `Region` and the salesperson column.  Pandas resolves the
key columns by name before any key tuple is built; that name resolution
(which fails on the interest table, whose salesperson column is spelled
`Sale Person` rather than the generator's expected `Sales person`) is
modelled in `group_by_customer` below. -/
structure DebitKey where
  customerNumber : Nat
  customerName : String
  areaName : String
  region : String
  salesPerson : String
deriving DecidableEq, Repr

/-- The grouping key tuple of one row, as built once the key columns
have resolved; the fallible resolution itself lives in
`group_by_customer`. -/
def rowKey (r : InterestRow) : DebitKey :=
  ⟨r.customerNumber, r.customerName, r.areaName, r.region, r.salePerson⟩

/-- Lexicographic comparison of grouping keys, the ascending key order
in which pandas `groupby(...de).agg(...).reset_index()` emits its groups. -/
def keyCmp : DebitKey → DebitKey → Ordering :=
  cmpThen (liftCmp natCmp DebitKey.customerNumber)
    (cmpThen (liftCmp strCmp DebitKey.customerName)
      (cmpThen (liftCmp strCmp DebitKey.areaName)
        (cmpThen (liftCmp strCmp DebitKey.region)
          (liftCmp strCmp DebitKey.salesPerson))))

/-- The (non-strict) key order induced by `keyCmp`. -/
def keyLe (a b : DebitKey) : Prop :=
  keyCmp a b ≠ Ordering.gt

instance : DecidableRel keyLe := fun a b =>
  inferInstanceAs (Decidable (keyCmp a b ≠ Ordering.gt))

/-- The distinct keys of the table, in ascending key order: the index of
the grouped frame. -/
def groupKeys (df : List InterestRow) : List DebitKey :=
  ((df.map rowKey).dedup).insertionSort keyLe

/-- The summed interest amount of one group. -/
def groupTotal (df : List InterestRow) (k : DebitKey) : ℚ :=
  ((df.filter fun r => rowKey r = k).map fun r => r.interestAmount).sum

/-- One row of the grouped frame: key columns plus the summed interest
amount, renamed `Total`. -/
structure GroupedRow where
  key : DebitKey
  total : ℚ
deriving DecidableEq, Repr

/-- The grouped frame pandas computes once the groupby key columns have
resolved: one row per distinct key, in ascending key order, with the
summed `interest amount` renamed `Total`. -/
def groupRows (rows : List InterestRow) : List GroupedRow :=
  (groupKeys rows).map fun k => ⟨k, groupTotal rows k⟩

/-- A grouped row after `round_totals`: `Total` is rounded to the nearest
integer (half-to-even) and cast to an integral type. -/
structure RoundedRow where
  key : DebitKey
  total : ℤ
deriving DecidableEq, Repr

/-- `DebitNoteGenerator.round_totals`. -/
def round_totals (l : List GroupedRow) : List RoundedRow :=
  l.map fun g => ⟨g.key, roundHalfEven g.total⟩

/-- A row after `add_debit_note_fields`: the key and total plus all the
injected constant columns.  `Invoice Date` is `datetime.now()` formatted;
the model takes the formatted date as the `today` argument. -/
structure DraftRow where
  key : DebitKey
  total : ℤ
  description : String
  invoiceStatus : String
  accountsReceivable : String
  isInclusiveTax : Bool
  subTotal : ℤ
  balance : ℤ
  notes : String
  invoiceType : String
  locationName : String
  itemDesc : String
  quantity : Nat
  itemTotal : ℤ
  itemPrice : ℤ
  itemType : String
  reasonForIssuing : String
  account : String
  lineItemLocationName : String
  supplyType : String
  cfBillType : String
  invoiceDate : String
  invoiceNo : String
deriving DecidableEq, Repr

/-- The constants written by `DebitNoteGenerator.add_debit_note_fields`. -/
def mkDraft (today : String) (k : DebitKey) (t : ℤ) : DraftRow :=
  { key := k
    total := t
    description := "OD Charges Dec-2025"
    invoiceStatus := "Open"
    accountsReceivable := "Accounts Receivable"
    isInclusiveTax := true
    subTotal := t
    balance := t
    notes := "OD Charges Dec-2025"
    invoiceType := "Debit Notes"
    locationName := "Head Office"
    itemDesc := "OD Charges Dec-2025"
    quantity := 1
    itemTotal := t
    itemPrice := t
    itemType := "service"
    reasonForIssuing := "Others"
    account := "OD CHARGES"
    lineItemLocationName := "HEAD OFFICE"
    supplyType := "Out of Scope"
    cfBillType := "Credit"
    invoiceDate := today
    invoiceNo := "" }

/-- `DebitNoteGenerator.add_debit_note_fields`. -/
def add_debit_note_fields (today : String) (l : List RoundedRow) : List DraftRow :=
  l.map fun g => mkDraft today g.key g.total

/-- Configuration taken by `DebitNoteGenerator.__init__` (defaults
"CDN/SA-" and `311`).  The constructor stores the two parameters and
performs no validation. -/
structure GenConfig where
  invoicePfx : String
  startingNumber : Nat
deriving DecidableEq, Repr

/-- Decimal digit characters of `n`, most significant first, by
fuel-counted structural recursion (the fuel is instantiated with `n`
itself, which always suffices since `n / 10 < n` for `n > 0`). -/
def natToStringAux : Nat → Nat → List Char
  | 0, _ => []
  | fuel + 1, n =>
    if n = 0 then [] else natToStringAux fuel (n / 10) ++ [Nat.digitChar (n % 10)]

/-- Model of Python `str` on a natural number. -/
def natToString (n : Nat) : String :=
  if n = 0 then "0" else (natToStringAux n n).asString

/-- The character list of `natToString n`. -/
def natChars (n : Nat) : List Char :=
  if n = 0 then ['0'] else ((Nat.digits 10 n).map Nat.digitChar).reverse

/-- Model of Python `str.zfill`: left-pad with '0' to the given width. -/
def zfill (w : Nat) (s : String) : String :=
  (List.replicate (w - s.length) '0').asString ++ s

/-- The invoice numbering loop of
`DebitNoteGenerator.generate_invoice_numbers`: row `i` (0-based) of the
frame gets `prefix + str(starting + i).zfill(6)`. -/
def numberFrom (pfx : String) : Nat → List DraftRow → List DraftRow
  | _, [] => []
  | n, r :: rs =>
    { r with invoiceNo := pfx ++ zfill 6 (natToString n) } :: numberFrom pfx (n + 1) rs

/-- `DebitNoteGenerator.generate_invoice_numbers`. -/
def generate_invoice_numbers (cfg : GenConfig) (l : List DraftRow) : List DraftRow :=
  numberFrom cfg.invoicePfx cfg.startingNumber l

/-- One row of the final debit note table, in the column set of
`DebitNoteGenerator.select_final_columns` (which drops `Area Name`,
`Region` and `Description`, and keeps `Customer Number` under its
`rename_customer_column` name `Customer ID`). -/
structure DebitNoteRow where
  invoiceDate : String
  invoiceNo : String
  invoiceStatus : String
  accountsReceivable : String
  customerID : Nat
  customerName : String
  isInclusiveTax : Bool
  subTotal : ℤ
  total : ℤ
  balance : ℤ
  notes : String
  invoiceType : String
  locationName : String
  itemDesc : String
  quantity : Nat
  itemTotal : ℤ
  itemPrice : ℤ
  salesPerson : String
  itemType : String
  reasonForIssuing : String
  account : String
  lineItemLocationName : String
  supplyType : String
  cfBillType : String
deriving DecidableEq, Repr

/-- Projection of a draft row to the final column set. -/
def toFinalRow (d : DraftRow) : DebitNoteRow :=
  { invoiceDate := d.invoiceDate
    invoiceNo := d.invoiceNo
    invoiceStatus := d.invoiceStatus
    accountsReceivable := d.accountsReceivable
    customerID := d.key.customerNumber
    customerName := d.key.customerName
    isInclusiveTax := d.isInclusiveTax
    subTotal := d.subTotal
    total := d.total
    balance := d.balance
    notes := d.notes
    invoiceType := d.invoiceType
    locationName := d.locationName
    itemDesc := d.itemDesc
    quantity := d.quantity
    itemTotal := d.itemTotal
    itemPrice := d.itemPrice
    salesPerson := d.key.salesPerson
    itemType := d.itemType
    reasonForIssuing := d.reasonForIssuing
    account := d.account
    lineItemLocationName := d.lineItemLocationName
    supplyType := d.supplyType
    cfBillType := d.cfBillType }

/-- The final sort relation: `sort_values(by='Customer ID')`. -/
def custLe (a b : DebitNoteRow) : Prop :=
  a.customerID ≤ b.customerID

instance : DecidableRel custLe := fun a b =>
  inferInstanceAs (Decidable (a.customerID ≤ b.customerID))

/-- `DebitNoteGenerator.rename_customer_column` followed by
`DebitNoteGenerator.select_final_columns`: project to the final columns
and sort by `Customer ID` ascending.  The source's
`sort_values(by='Customer ID')` uses pandas' default quicksort, which
fixes no order among rows with equal customer ids; the model's insertion
sort is one admissible outcome.  Theorems below therefore state only
properties that hold for every permutation sorted by customer id
(lengths, memberships, multisets of values, weakly ascending ids), and
restrict any claim about positions among ties to inputs whose distinct
keys carry pairwise distinct customer ids, where all sorts agree. -/
def select_final_columns (l : List DraftRow) : List DebitNoteRow :=
  (l.map toFinalRow).insertionSort custLe

/-- The successful branch of `DebitNoteGenerator.generate_debit_notes`,
from the grouped rows onwards: round the totals, add the constant
fields, assign invoice numbers, rename and project/sort. -/
def assembleNotes (cfg : GenConfig) (today : String) (rows : List InterestRow) :
    List DebitNoteRow :=
  select_final_columns
    (generate_invoice_numbers cfg (add_debit_note_fields today (round_totals (groupRows rows))))

/-- A data frame as handed to the generator: the row contents together
with the name under which the frame stores its salesperson column.  The
other groupby key columns (`Customer Number`, `Customer Name`,
`Area Name`, `Region`) are spelled identically in the interest table and
in the generator's key list, so only the salesperson spelling can make
the key resolution fail. -/
structure InterestFrame where
  salespersonColumn : String
  rows : List InterestRow
deriving DecidableEq, Repr

/-- The error pandas raises when the groupby key column `Sales person`
is absent from the frame. -/
def keyErrorSalesperson : String := "KeyError: 'Sales person'"

/-- `DebitNoteGenerator.group_by_customer`: pandas first resolves the
key columns by name; if the frame stores its salesperson column under
any other name — as the interest table does, `Sale Person` — it raises
`KeyError('Sales person')`; otherwise it groups by the composite key and
sums `interest amount` within each group, renaming the sum `Total`. -/
def group_by_customer (df : InterestFrame) : Except String (List GroupedRow) :=
  if df.salespersonColumn = "Sales person" then Except.ok (groupRows df.rows)
  else Except.error keyErrorSalesperson

/-- `DebitNoteGenerator.generate_debit_notes`: group (which may raise),
then round, add the constant fields, assign invoice numbers, rename and
project/sort. -/
def generate_debit_notes (cfg : GenConfig) (today : String) (df : InterestFrame) :
    Except String (List DebitNoteRow) :=
  (group_by_customer df).map fun g =>
    select_final_columns
      (generate_invoice_numbers cfg (add_debit_note_fields today (round_totals g)))

/-- The frame `app.py` actually hands to the generator: the interest
table, whose salesperson column is named `Sale Person` by
`InterestCalculator.select_final_columns`. -/
def interestFrame (rows : List InterestRow) : InterestFrame :=
  ⟨"Sale Person", rows⟩

/-! Structural lemmas: the successful assembly path in closed form. -/

/-- The fully assembled debit note row of the group with key `k`, total
`t` and invoice counter value `n`. -/
def mkNote (pfx today : String) (n : Nat) (k : DebitKey) (t : ℤ) : DebitNoteRow :=
  { invoiceDate := today
    invoiceNo := pfx ++ zfill 6 (natToString n)
    invoiceStatus := "Open"
    accountsReceivable := "Accounts Receivable"
    customerID := k.customerNumber
    customerName := k.customerName
    isInclusiveTax := true
    subTotal := t
    total := t
    balance := t
    notes := "OD Charges Dec-2025"
    invoiceType := "Debit Notes"
    locationName := "Head Office"
    itemDesc := "OD Charges Dec-2025"
    quantity := 1
    itemTotal := t
    itemPrice := t
    salesPerson := k.salesPerson
    itemType := "service"
    reasonForIssuing := "Others"
    account := "OD CHARGES"
    lineItemLocationName := "HEAD OFFICE"
    supplyType := "Out of Scope"
    cfBillType := "Credit" }

/-! Concrete sample data used by the witness and counterexample
theorems. -/

/-- The default interest configuration of the application. -/
def sampleConfig : InterestConfig :=
  { perDayRate := 6 / 100, dueDaysThreshold := 150, maxWorkingDays := 31 }

/-- A cleaned row with the given customer number, name, age and balance
due. -/
def mkCleanRow (cn : Nat) (nm : String) (age : ℤ) (bd : ℚ) : CleanRow :=
  { region := "North", areaName := "Area1", market := "Mkt", customerName := nm
    customerNumber := cn, date := "2025-11-01", transactionNo := "T1"
    typ := "Invoice", status := "Overdue", dueDate := "2025-06-01"
    amount := bd, balanceDue := bd, age := age, salePerson := "SP" }

/-- An interest row with the given customer number, name and
salesperson. -/
def sampleIRow (cn : Nat) (nm sp : String) : InterestRow :=
  { region := "North", areaName := "Area1", market := "Mkt", customerName := nm
    customerNumber := cn, date := "2025-11-01", transactionNo := "T1"
    typ := "Invoice", status := "Overdue", dueDate := "2025-06-01"
    amount := 0, balanceDue := 0, age := 200, dueDays := 150
    previousInterst := 19, interstWorking := 31, perDayPct := 0
    workingPct := 0, interestAmount := 0, salePerson := sp }

/-! Theorems.  First the comparator laws, then evaluation lemmas, then
the structural lemmas about the two pipeline entry points, and finally
the specification claims. -/

/-- Rounding an integer changes nothing. -/
theorem roundHalfEven_intCast (n : ℤ) : roundHalfEven ((n : ℤ) : ℚ) = n := by
  simp only [roundHalfEven, Int.floor_intCast]
  norm_num

theorem cmpThen_lt_iff (c1 c2 : α → α → Ordering) (a b : α) :
    cmpThen c1 c2 a b = .lt ↔ c1 a b = .lt ∨ (c1 a b = .eq ∧ c2 a b = .lt) := by
  unfold cmpThen
  cases e : c1 a b <;> simp [e]

theorem cmpThen_gt_iff (c1 c2 : α → α → Ordering) (a b : α) :
    cmpThen c1 c2 a b = .gt ↔ c1 a b = .gt ∨ (c1 a b = .eq ∧ c2 a b = .gt) := by
  unfold cmpThen
  cases e : c1 a b <;> simp [e]

theorem cmpThen_eq_iff (c1 c2 : α → α → Ordering) (a b : α) :
    cmpThen c1 c2 a b = .eq ↔ c1 a b = .eq ∧ c2 a b = .eq := by
  unfold cmpThen
  cases e : c1 a b <;> simp [e]

namespace LawfulCmp

variable {cmp : α → α → Ordering}

theorem congr_right (h : LawfulCmp cmp) {b c : α} (e : cmp b c = .eq) (a : α) :
    cmp a b = cmp a c := by
  have hba : cmp b a = cmp c a := h.congr_left e a
  have h1 : cmp b a = (cmp a b).swap := h.swap_eq a b
  have h2 : cmp c a = (cmp a c).swap := h.swap_eq a c
  rw [h1, h2] at hba
  cases e1 : cmp a b <;> cases e2 : cmp a c <;> rw [e1, e2] at hba <;>
    first
      | rfl
      | simp [Ordering.swap] at hba

theorem le_total' (h : LawfulCmp cmp) (a b : α) :
    cmp a b ≠ .gt ∨ cmp b a ≠ .gt := by
  cases e : cmp a b with
  | lt => exact Or.inl (by simp [e])
  | eq => exact Or.inl (by simp [e])
  | gt =>
    refine Or.inr ?_
    rw [h.swap_eq a b, e]
    simp [Ordering.swap]

theorem le_trans' (h : LawfulCmp cmp) {a b c : α}
    (h1 : cmp a b ≠ .gt) (h2 : cmp b c ≠ .gt) : cmp a c ≠ .gt := by
  cases e1 : cmp a b with
  | lt =>
    cases e2 : cmp b c with
    | lt => rw [h.lt_trans e1 e2]; simp
    | eq => rw [← h.congr_right e2 a, e1]; simp
    | gt => exact absurd e2 h2
  | eq => rw [h.congr_left e1 c]; exact h2
  | gt => exact absurd e1 h1

theorem comp {c1 c2 : α → α → Ordering} (h1 : LawfulCmp c1) (h2 : LawfulCmp c2) :
    LawfulCmp (cmpThen c1 c2) := by
  constructor
  · intro a b
    unfold cmpThen
    rw [h1.swap_eq a b, h2.swap_eq a b]
    cases c1 a b <;> cases c2 a b <;> rfl
  · intro a b c hab hbc
    rw [cmpThen_lt_iff] at hab hbc ⊢
    rcases hab with hab | ⟨hab, hab2⟩
    · rcases hbc with hbc | ⟨hbc, hbc2⟩
      · exact Or.inl (h1.lt_trans hab hbc)
      · exact Or.inl (by rw [← h1.congr_right hbc a]; exact hab)
    · rcases hbc with hbc | ⟨hbc, hbc2⟩
      · exact Or.inl (by rw [h1.congr_left hab c]; exact hbc)
      · refine Or.inr ⟨by rw [h1.congr_left hab c]; exact hbc, h2.lt_trans hab2 hbc2⟩
  · intro a b e c
    rw [cmpThen_eq_iff] at e
    unfold cmpThen
    rw [h1.congr_left e.1 c, h2.congr_left e.2 c]

theorem lift (h : LawfulCmp cmp) (f : γ → α) : LawfulCmp (liftCmp cmp f) := by
  constructor
  · intro a b; exact h.swap_eq (f a) (f b)
  · intro a b c h1 h2; exact h.lt_trans h1 h2
  · intro a b e c; exact h.congr_left e (f c)

end LawfulCmp

theorem lawful_natCmp : LawfulCmp natCmp := by
  constructor
  · intro a b
    rcases Nat.lt_trichotomy a b with h | h | h
    · have h' : ¬ b < a := Nat.lt_asymm h
      simp [natCmp, h, h', Ordering.swap]
    · subst h
      simp [natCmp, Nat.lt_irrefl, Ordering.swap]
    · have h' : ¬ a < b := Nat.lt_asymm h
      simp [natCmp, h, h', Ordering.swap]
  · intro a b c h1 h2
    unfold natCmp at h1 h2 ⊢
    split_ifs at h1 h2 ⊢ <;>
      first
        | rfl
        | omega
  · intro a b e c
    have : a = b := by
      unfold natCmp at e
      split_ifs at e <;> omega
    rw [this]

theorem charListCmp_eq_eq : ∀ {x y : List Char}, charListCmp x y = .eq → x = y := by
  intro x
  induction x with
  | nil =>
    intro y e
    cases y with
    | nil => rfl
    | cons b bs => exact absurd e (by simp [charListCmp])
  | cons a as ih =>
    intro y e
    cases y with
    | nil => exact absurd e (by simp [charListCmp])
    | cons b bs =>
      unfold charListCmp at e
      split_ifs at e with h1 h2
      have : a = b := le_antisymm (not_lt.mp h2) (not_lt.mp h1)
      rw [this, ih e]

theorem lawful_charListCmp : LawfulCmp charListCmp := by
  constructor
  · intro a b
    induction a generalizing b with
    | nil => cases b <;> rfl
    | cons x xs ih =>
      cases b with
      | nil => rfl
      | cons y ys =>
        show charListCmp (y :: ys) (x :: xs) = (charListCmp (x :: xs) (y :: ys)).swap
        unfold charListCmp
        rcases lt_trichotomy x y with h | h | h
        · rw [if_neg (lt_asymm h), if_pos h, if_pos h]; rfl
        · subst h
          rw [if_neg (lt_irrefl x), if_neg (lt_irrefl x), if_neg (lt_irrefl x),
            if_neg (lt_irrefl x)]
          exact ih ys
        · rw [if_pos h, if_neg (lt_asymm h), if_pos h]; rfl
  · intro a b c h1 h2
    induction a generalizing b c with
    | nil =>
      cases b with
      | nil => exact absurd h1 (by simp [charListCmp])
      | cons y ys =>
        cases c with
        | nil => exact absurd h2 (by simp [charListCmp])
        | cons z zs => simp [charListCmp]
    | cons x xs ih =>
      cases b with
      | nil => exact absurd h1 (by simp [charListCmp])
      | cons y ys =>
        cases c with
        | nil => exact absurd h2 (by simp [charListCmp])
        | cons z zs =>
          unfold charListCmp at h1 h2 ⊢
          rcases lt_trichotomy x y with hxy | hxy | hxy
          · rw [if_pos hxy] at h1
            rcases lt_trichotomy y z with hyz | hyz | hyz
            · rw [if_pos (lt_trans hxy hyz)]
            · subst hyz; rw [if_pos hxy]
            · rw [if_neg (lt_asymm hyz), if_pos hyz] at h2
              exact absurd h2 (by decide)
          · subst hxy
            rw [if_neg (lt_irrefl x), if_neg (lt_irrefl x)] at h1
            rcases lt_trichotomy x z with hxz | hxz | hxz
            · rw [if_pos hxz]
            · subst hxz
              rw [if_neg (lt_irrefl x), if_neg (lt_irrefl x)] at h2 ⊢
              exact ih h1 h2
            · rw [if_neg (lt_asymm hxz), if_pos hxz] at h2
              exact absurd h2 (by decide)
          · rw [if_neg (lt_asymm hxy), if_pos hxy] at h1
            exact absurd h1 (by decide)
  · intro a b e c
    rw [charListCmp_eq_eq e]

theorem lawful_strCmp : LawfulCmp strCmp :=
  lawful_charListCmp.lift String.data

theorem lawful_keyCmp : LawfulCmp keyCmp :=
  (lawful_natCmp.lift _).comp
    ((lawful_strCmp.lift _).comp
      ((lawful_strCmp.lift _).comp
        ((lawful_strCmp.lift _).comp (lawful_strCmp.lift _))))

theorem keyLe_isTotal : IsTotal DebitKey keyLe :=
  ⟨fun a b => lawful_keyCmp.le_total' a b⟩

theorem keyLe_isTrans : IsTrans DebitKey keyLe :=
  ⟨fun _ _ _ h1 h2 => lawful_keyCmp.le_trans' h1 h2⟩

/-- The key order refines the customer-number order. -/
theorem keyLe_customerNumber {a b : DebitKey} (h : keyLe a b) :
    a.customerNumber ≤ b.customerNumber := by
  unfold keyLe keyCmp at h
  cases e : natCmp a.customerNumber b.customerNumber with
  | lt =>
    unfold natCmp at e
    split_ifs at e <;> omega
  | eq =>
    unfold natCmp at e
    split_ifs at e <;> omega
  | gt =>
    exfalso
    exact h ((cmpThen_gt_iff _ _ a b).mpr (Or.inl e))

theorem numberFrom_length (pfx : String) (n : Nat) (l : List DraftRow) :
    (numberFrom pfx n l).length = l.length := by
  induction l generalizing n with
  | nil => rfl
  | cons r rs ih => simp [numberFrom, ih]

theorem numberFrom_getElem (pfx : String) {n i : Nat} {l : List DraftRow}
    (h : i < l.length) (h' : i < (numberFrom pfx n l).length) :
    (numberFrom pfx n l)[i] =
      { l[i] with invoiceNo := pfx ++ zfill 6 (natToString (n + i)) } := by
  induction l generalizing n i with
  | nil => exact absurd h (by simp)
  | cons r rs ih =>
    cases i with
    | zero => simp [numberFrom]
    | succ j =>
      have hj : j < rs.length := by simpa using h
      have hj' : j < (numberFrom pfx (n + 1) rs).length := by
        rw [numberFrom_length]; exact hj
      show (numberFrom pfx n (r :: rs))[j + 1] = _
      have step : (numberFrom pfx n (r :: rs))[j + 1] =
          (numberFrom pfx (n + 1) rs)[j] := by
        simp [numberFrom]
      rw [step, ih hj hj']
      have : n + 1 + j = n + (j + 1) := by omega
      rw [this]
      rfl

theorem numberFrom_mem {pfx : String} {x : DraftRow} {n : Nat} {l : List DraftRow}
    (hx : x ∈ numberFrom pfx n l) :
    ∃ y ∈ l, ∃ m, x = { y with invoiceNo := pfx ++ zfill 6 (natToString m) } := by
  induction l generalizing n with
  | nil => simp [numberFrom] at hx
  | cons r rs ih =>
    simp only [numberFrom, List.mem_cons] at hx
    rcases hx with hx | hx
    · exact ⟨r, List.mem_cons_self r rs, n, hx⟩
    · obtain ⟨y, hy, m, hm⟩ := ih hx
      exact ⟨y, List.mem_cons_of_mem r hy, m, hm⟩

/-- The generator pipeline before the final projection and sort, in
closed form over the sorted key list. -/
theorem preSort_eq (cfg : GenConfig) (today : String) (df : List InterestRow) :
    generate_invoice_numbers cfg
        (add_debit_note_fields today (round_totals (groupRows df))) =
      numberFrom cfg.invoicePfx cfg.startingNumber
        ((groupKeys df).map fun k => mkDraft today k (roundHalfEven (groupTotal df k))) := by
  unfold generate_invoice_numbers add_debit_note_fields round_totals groupRows
  rw [List.map_map, List.map_map]
  rfl

theorem sorted_groupKeys (df : List InterestRow) : List.Sorted keyLe (groupKeys df) := by
  haveI := keyLe_isTotal
  haveI := keyLe_isTrans
  exact List.sorted_insertionSort keyLe _

theorem nodup_groupKeys (df : List InterestRow) : (groupKeys df).Nodup :=
  ((List.perm_insertionSort keyLe _).nodup_iff).mpr (List.nodup_dedup _)

theorem mem_groupKeys {df : List InterestRow} {k : DebitKey} :
    k ∈ groupKeys df ↔ k ∈ df.map rowKey := by
  unfold groupKeys
  rw [List.mem_insertionSort, List.mem_dedup]

/-- The element at position `i` of the pre-sort pipeline output. -/
theorem preSortMapped_getElem (cfg : GenConfig) (today : String) (df : List InterestRow)
    {i : Nat} (h : i < (groupKeys df).length)
    (h' : i < ((numberFrom cfg.invoicePfx cfg.startingNumber
      ((groupKeys df).map fun k => mkDraft today k (roundHalfEven (groupTotal df k)))).map
        toFinalRow).length) :
    ((numberFrom cfg.invoicePfx cfg.startingNumber
        ((groupKeys df).map fun k => mkDraft today k (roundHalfEven (groupTotal df k)))).map
          toFinalRow)[i] =
      mkNote cfg.invoicePfx today (cfg.startingNumber + i) ((groupKeys df)[i])
        (roundHalfEven (groupTotal df ((groupKeys df)[i]))) := by
  have hm : i < ((groupKeys df).map
      fun k => mkDraft today k (roundHalfEven (groupTotal df k))).length := by
    rw [List.length_map]; exact h
  have hn : i < (numberFrom cfg.invoicePfx cfg.startingNumber
      ((groupKeys df).map fun k => mkDraft today k (roundHalfEven (groupTotal df k)))).length := by
    rw [numberFrom_length]; exact hm
  rw [List.getElem_map, numberFrom_getElem cfg.invoicePfx hm hn, List.getElem_map]
  rfl

/-- The pre-sort pipeline output is already sorted by customer id, since
the `groupby` key order refines it; hence the final stable sort leaves
it unchanged. -/
theorem sorted_preSortMapped (cfg : GenConfig) (today : String) (df : List InterestRow) :
    List.Sorted custLe
      ((numberFrom cfg.invoicePfx cfg.startingNumber
        ((groupKeys df).map fun k => mkDraft today k (roundHalfEven (groupTotal df k)))).map
          toFinalRow) := by
  rw [List.Sorted, List.pairwise_iff_getElem]
  intro i j hi hj hij
  have hlen : ((numberFrom cfg.invoicePfx cfg.startingNumber
      ((groupKeys df).map fun k => mkDraft today k (roundHalfEven (groupTotal df k)))).map
        toFinalRow).length = (groupKeys df).length := by
    rw [List.length_map, numberFrom_length, List.length_map]
  have hi' : i < (groupKeys df).length := hlen ▸ hi
  have hj' : j < (groupKeys df).length := hlen ▸ hj
  rw [preSortMapped_getElem cfg today df hi' hi, preSortMapped_getElem cfg today df hj' hj]
  have hkey : keyLe ((groupKeys df)[i]) ((groupKeys df)[j]) := by
    have := sorted_groupKeys df
    rw [List.Sorted, List.pairwise_iff_getElem] at this
    exact this i j hi' hj' hij
  exact keyLe_customerNumber hkey

/-- The assembly path in closed form. -/
theorem gen_eq (cfg : GenConfig) (today : String) (df : List InterestRow) :
    assembleNotes cfg today df =
      (numberFrom cfg.invoicePfx cfg.startingNumber
        ((groupKeys df).map fun k => mkDraft today k (roundHalfEven (groupTotal df k)))).map
          toFinalRow := by
  unfold assembleNotes select_final_columns
  rw [preSort_eq]
  exact (sorted_preSortMapped cfg today df).insertionSort_eq

theorem gen_length (cfg : GenConfig) (today : String) (df : List InterestRow) :
    (assembleNotes cfg today df).length = (groupKeys df).length := by
  rw [gen_eq, List.length_map, numberFrom_length, List.length_map]

theorem gen_getElem (cfg : GenConfig) (today : String) (df : List InterestRow)
    {i : Nat} (h : i < (groupKeys df).length)
    (h' : i < (assembleNotes cfg today df).length) :
    (assembleNotes cfg today df)[i] =
      mkNote cfg.invoicePfx today (cfg.startingNumber + i) ((groupKeys df)[i])
        (roundHalfEven (groupTotal df ((groupKeys df)[i]))) := by
  rw [List.getElem_of_eq (gen_eq cfg today df) h']
  exact preSortMapped_getElem cfg today df h _

theorem gen_mem {cfg : GenConfig} {today : String} {df : List InterestRow} {r : DebitNoteRow}
    (hr : r ∈ assembleNotes cfg today df) :
    ∃ k ∈ groupKeys df, ∃ n,
      r = mkNote cfg.invoicePfx today n k (roundHalfEven (groupTotal df k)) := by
  rw [gen_eq] at hr
  obtain ⟨d, hd, rfl⟩ := List.mem_map.mp hr
  obtain ⟨y, hy, m, rfl⟩ := numberFrom_mem hd
  obtain ⟨k, hk, rfl⟩ := List.mem_map.mp hy
  exact ⟨k, hk, m, rfl⟩

/-! Injectivity of the invoice number format
`prefix + str(n).zfill(6)`. -/

theorem natToStringAux_eq {fuel n : Nat} (h : n ≤ fuel) :
    natToStringAux fuel n = ((Nat.digits 10 n).map Nat.digitChar).reverse := by
  induction fuel generalizing n with
  | zero =>
    have hn : n = 0 := by omega
    subst hn
    simp [natToStringAux]
  | succ f ih =>
    by_cases hn : n = 0
    · subst hn
      simp [natToStringAux]
    · have hd : Nat.digits 10 n = n % 10 :: Nat.digits 10 (n / 10) :=
        Nat.digits_def' (by norm_num) (Nat.pos_of_ne_zero hn)
      have hdiv : n / 10 < n := Nat.div_lt_self (Nat.pos_of_ne_zero hn) (by norm_num)
      have hle : n / 10 ≤ f := by omega
      rw [show natToStringAux (f + 1) n =
          if n = 0 then [] else natToStringAux f (n / 10) ++ [Nat.digitChar (n % 10)] from rfl,
        if_neg hn, ih hle, hd]
      simp

theorem natToString_data (n : Nat) : (natToString n).data = natChars n := by
  unfold natToString natChars
  by_cases h : n = 0
  · subst h; rfl
  · rw [if_neg h, if_neg h, natToStringAux_eq (le_refl n)]
    rfl

theorem digitChar_inj_lt10 (a b : Nat) (ha : a < 10) (hb : b < 10)
    (e : Nat.digitChar a = Nat.digitChar b) : a = b := by
  interval_cases a <;> interval_cases b <;> revert e <;> decide

theorem digitChar_ne_zero_char (d : Nat) (h1 : d < 10) (h2 : d ≠ 0) :
    Nat.digitChar d ≠ '0' := by
  interval_cases d
  · exact absurd rfl h2
  all_goals decide

theorem map_digitChar_inj : ∀ {l1 l2 : List Nat}, (∀ x ∈ l1, x < 10) → (∀ x ∈ l2, x < 10) →
    l1.map Nat.digitChar = l2.map Nat.digitChar → l1 = l2 := by
  intro l1
  induction l1 with
  | nil =>
    intro l2 _ _ e
    cases l2 with
    | nil => rfl
    | cons b bs => simp at e
  | cons a as ih =>
    intro l2 h1 h2 e
    cases l2 with
    | nil => simp at e
    | cons b bs =>
      simp only [List.map_cons, List.cons.injEq] at e
      have ha : a < 10 := h1 a (List.mem_cons_self _ _)
      have hb : b < 10 := h2 b (List.mem_cons_self _ _)
      rw [digitChar_inj_lt10 a b ha hb e.1,
        ih (fun x hx => h1 x (List.mem_cons_of_mem _ hx))
          (fun x hx => h2 x (List.mem_cons_of_mem _ hx)) e.2]

theorem natChars_head_ne_zero {n : Nat} (hn : n ≠ 0) :
    ∃ c t, natChars n = c :: t ∧ c ≠ '0' := by
  have hnil : Nat.digits 10 n ≠ [] := Nat.digits_ne_nil_iff_ne_zero.mpr hn
  obtain ⟨d, ds, hds⟩ := List.exists_cons_of_ne_nil
    (show (Nat.digits 10 n).reverse ≠ [] by simpa using hnil)
  have hdig : Nat.digits 10 n = ds.reverse ++ [d] := by
    rw [← List.reverse_reverse (Nat.digits 10 n), hds]
    simp
  have hmem : d ∈ Nat.digits 10 n := by
    rw [hdig]; simp
  have hlt : d < 10 := Nat.digits_lt_base (by norm_num) hmem
  have hgl := Nat.getLast_digit_ne_zero 10 hn
  have hlast : (Nat.digits 10 n).getLast hnil = d := by
    simp only [hdig]
    exact List.getLast_append_singleton ds.reverse
  have hne : d ≠ 0 := by rw [← hlast]; exact hgl
  refine ⟨Nat.digitChar d, ds.map Nat.digitChar, ?_, digitChar_ne_zero_char d hlt hne⟩
  unfold natChars
  rw [if_neg hn, hdig]
  simp

theorem natChars_inj : ∀ {m n : Nat}, natChars m = natChars n → m = n := by
  intro m n e
  by_cases hm : m = 0 <;> by_cases hn : n = 0
  · rw [hm, hn]
  · exfalso
    obtain ⟨c, t, hct, hc⟩ := natChars_head_ne_zero hn
    rw [hm, hct] at e
    have : natChars 0 = ['0'] := rfl
    rw [this] at e
    exact hc (by injection e.symm)
  · exfalso
    obtain ⟨c, t, hct, hc⟩ := natChars_head_ne_zero hm
    rw [hn, hct] at e
    have : natChars 0 = ['0'] := rfl
    rw [this] at e
    exact hc (by injection e)
  · unfold natChars at e
    rw [if_neg hm, if_neg hn] at e
    have e2 : (Nat.digits 10 m).map Nat.digitChar = (Nat.digits 10 n).map Nat.digitChar := by
      have := congrArg List.reverse e
      simpa using this
    have e3 : Nat.digits 10 m = Nat.digits 10 n :=
      map_digitChar_inj (fun x hx => Nat.digits_lt_base (by norm_num) hx)
        (fun x hx => Nat.digits_lt_base (by norm_num) hx) e2
    have := congrArg (Nat.ofDigits 10) e3
    rwa [Nat.ofDigits_digits, Nat.ofDigits_digits] at this

theorem pad_natChars_inj_le {m n p q : Nat} (hm : m ≠ 0) (_hn : n ≠ 0) (hpq : p ≤ q)
    (e : List.replicate p '0' ++ natChars m = List.replicate q '0' ++ natChars n) :
    m = n := by
  have hsplit : List.replicate q '0' =
      List.replicate p '0' ++ List.replicate (q - p) '0' := by
    rw [← List.replicate_add]
    congr 1
    omega
  rw [hsplit, List.append_assoc] at e
  have e2 : natChars m = List.replicate (q - p) '0' ++ natChars n :=
    List.append_cancel_left e
  cases hqp : q - p with
  | zero =>
    rw [hqp] at e2
    simp only [List.replicate, List.nil_append] at e2
    exact natChars_inj e2
  | succ k =>
    exfalso
    rw [hqp, List.replicate_succ] at e2
    obtain ⟨c, t, hct, hc⟩ := natChars_head_ne_zero hm
    rw [hct] at e2
    exact hc (by injection e2)

theorem pad_natChars_inj {m n p q : Nat}
    (e : List.replicate p '0' ++ natChars m = List.replicate q '0' ++ natChars n) :
    m = n := by
  by_cases hm : m = 0 <;> by_cases hn : n = 0
  · rw [hm, hn]
  · exfalso
    obtain ⟨c, t, hct, hc⟩ := natChars_head_ne_zero hn
    rw [hm, hct] at e
    have hz : List.replicate p '0' ++ natChars 0 = List.replicate (p + 1) '0' := by
      rw [List.replicate_succ' p]
      rfl
    rw [hz] at e
    have hmemc : c ∈ List.replicate (p + 1) '0' := by
      rw [e]
      exact List.mem_append_right _ (List.mem_cons_self _ _)
    exact hc (List.eq_of_mem_replicate hmemc)
  · exfalso
    obtain ⟨c, t, hct, hc⟩ := natChars_head_ne_zero hm
    rw [hn, hct] at e
    have hz : List.replicate q '0' ++ natChars 0 = List.replicate (q + 1) '0' := by
      rw [List.replicate_succ' q]
      rfl
    rw [hz] at e
    have hmemc : c ∈ List.replicate (q + 1) '0' := by
      rw [← e]
      exact List.mem_append_right _ (List.mem_cons_self _ _)
    exact hc (List.eq_of_mem_replicate hmemc)
  · rcases le_total p q with hpq | hpq
    · exact pad_natChars_inj_le hm hn hpq e
    · exact (pad_natChars_inj_le hn hm hpq e.symm).symm

theorem zfill_data (w : Nat) (s : String) :
    (zfill w s).data = List.replicate (w - s.length) '0' ++ s.data := by
  unfold zfill
  rw [String.data_append]
  rfl

/-- Distinct counter values produce distinct invoice number strings. -/
theorem invoiceNo_inj {pfx : String} {m n : Nat}
    (e : pfx ++ zfill 6 (natToString m) = pfx ++ zfill 6 (natToString n)) : m = n := by
  have hdata := congrArg String.data e
  rw [String.data_append, String.data_append] at hdata
  have e2 : (zfill 6 (natToString m)).data = (zfill 6 (natToString n)).data :=
    List.append_cancel_left hdata
  rw [zfill_data, zfill_data, natToString_data, natToString_data] at e2
  exact pad_natChars_inj e2


/-! Lemmas about `calculate_interest`. -/

theorem interestRowOf_age (c : InterestConfig) (s : CleanRow) :
    (interestRowOf c s).age = s.age := rfl

theorem interestRowOf_balanceDue (c : InterestConfig) (s : CleanRow) :
    (interestRowOf c s).balanceDue = s.balanceDue := rfl

theorem interestRowOf_working (c : InterestConfig) (s : CleanRow) :
    (interestRowOf c s).interstWorking =
      min (s.age - c.dueDaysThreshold) c.maxWorkingDays := rfl

theorem interestRowOf_previous (c : InterestConfig) (s : CleanRow) :
    (interestRowOf c s).previousInterst =
      (s.age - c.dueDaysThreshold) - min (s.age - c.dueDaysThreshold) c.maxWorkingDays := rfl

theorem interestRowOf_pct (c : InterestConfig) (s : CleanRow) :
    (interestRowOf c s).workingPct =
      ((min (s.age - c.dueDaysThreshold) c.maxWorkingDays : ℤ) : ℚ) * c.perDayRate := rfl

theorem interestRowOf_amount (c : InterestConfig) (s : CleanRow) :
    (interestRowOf c s).interestAmount =
      round4 (s.balanceDue *
        (((min (s.age - c.dueDaysThreshold) c.maxWorkingDays : ℤ) : ℚ) * c.perDayRate / 100)) := rfl

theorem calculate_interest_mem {c : InterestConfig} {df : List CleanRow} {r : InterestRow}
    (hr : r ∈ calculate_interest c df) :
    ∃ s ∈ df, c.dueDaysThreshold < s.age ∧ r = interestRowOf c s := by
  unfold calculate_interest at hr
  obtain ⟨s, hs, rfl⟩ := List.mem_map.mp hr
  rw [List.mem_insertionSort] at hs
  unfold filter_by_age at hs
  rw [List.mem_filter] at hs
  exact ⟨s, hs.1, by simpa using hs.2, rfl⟩

theorem calculate_interest_length (c : InterestConfig) (df : List CleanRow) :
    (calculate_interest c df).length = (filter_by_age c df).length := by
  unfold calculate_interest
  rw [List.length_map, List.length_insertionSort]

/-! The specification claims. -/

/-- C3: `calculate_interest` retains exactly the rows whose age strictly
exceeds `due_days_threshold`; for every retained row,
`working_days = min (age - threshold) max_working_days` lies in
`[1, max_working_days]`, and
`previous_interest_days = (age - threshold) - working_days` is
non-negative and non-zero only when `age - threshold` exceeds
`max_working_days`. -/
theorem interest_filter_and_working_days (c : InterestConfig) (df : List CleanRow)
    (hmax : 1 ≤ c.maxWorkingDays) :
    (calculate_interest c df).length =
      (df.filter fun r => c.dueDaysThreshold < r.age).length ∧
    ∀ r ∈ calculate_interest c df,
      c.dueDaysThreshold < r.age ∧
      r.interstWorking = min (r.age - c.dueDaysThreshold) c.maxWorkingDays ∧
      1 ≤ r.interstWorking ∧ r.interstWorking ≤ c.maxWorkingDays ∧
      r.previousInterst = (r.age - c.dueDaysThreshold) - r.interstWorking ∧
      0 ≤ r.previousInterst ∧
      (r.previousInterst ≠ 0 → c.maxWorkingDays < r.age - c.dueDaysThreshold) := by
  constructor
  · rw [calculate_interest_length]
    rfl
  · intro r hr
    obtain ⟨s, _, hage, rfl⟩ := calculate_interest_mem hr
    refine ⟨hage, rfl, ?_, ?_, rfl, ?_, ?_⟩ <;>
      simp only [interestRowOf_age, interestRowOf_working, interestRowOf_previous] <;>
      omega

/-- C3 witness: with the default configuration, a row aged exactly at the
threshold is dropped and a row one day over it is kept, with working
days `1`. -/
theorem interest_filter_and_working_days_witness :
    1 ≤ sampleConfig.maxWorkingDays ∧
    ((calculate_interest sampleConfig
        [mkCleanRow 1 "A" 150 100, mkCleanRow 2 "B" 151 100]).length =
      ([mkCleanRow 1 "A" 150 100, mkCleanRow 2 "B" 151 100].filter
        fun r => sampleConfig.dueDaysThreshold < r.age).length ∧
      ∀ r ∈ calculate_interest sampleConfig
        [mkCleanRow 1 "A" 150 100, mkCleanRow 2 "B" 151 100],
        sampleConfig.dueDaysThreshold < r.age ∧
        r.interstWorking = min (r.age - sampleConfig.dueDaysThreshold)
          sampleConfig.maxWorkingDays ∧
        1 ≤ r.interstWorking ∧ r.interstWorking ≤ sampleConfig.maxWorkingDays ∧
        r.previousInterst = (r.age - sampleConfig.dueDaysThreshold) - r.interstWorking ∧
        0 ≤ r.previousInterst ∧
        (r.previousInterst ≠ 0 →
          sampleConfig.maxWorkingDays < r.age - sampleConfig.dueDaysThreshold)) ∧
    (calculate_interest sampleConfig
        [mkCleanRow 1 "A" 150 100, mkCleanRow 2 "B" 151 100]).length = 1 :=
  ⟨by decide,
    interest_filter_and_working_days sampleConfig
      [mkCleanRow 1 "A" 150 100, mkCleanRow 2 "B" 151 100] (by decide),
    by decide⟩

/-- C4: for every retained row,
`working_interest_pct = working_days * per_day_rate` and
`interest_amount = round4 (balance_due * working_interest_pct / 100)`. -/
theorem interest_amount_formula (c : InterestConfig) (df : List CleanRow) :
    ∀ r ∈ calculate_interest c df,
      r.workingPct = ((r.interstWorking : ℤ) : ℚ) * c.perDayRate ∧
      r.interestAmount = round4 (r.balanceDue * (r.workingPct / 100)) := by
  intro r hr
  obtain ⟨s, _, _, rfl⟩ := calculate_interest_mem hr
  constructor
  · rw [interestRowOf_pct, interestRowOf_working]
  · rw [interestRowOf_amount, interestRowOf_balanceDue, interestRowOf_pct]

/-- C4 witness: `balance_due = 10000`, `age = 181` (31 working days) and
`rate = 0.06` give `working_interest_pct = 1.86` and
`interest_amount = 186`. -/
theorem interest_amount_formula_witness :
    (interestRowOf sampleConfig (mkCleanRow 1 "A" 181 10000) ∈
      calculate_interest sampleConfig [mkCleanRow 1 "A" 181 10000]) ∧
    ((interestRowOf sampleConfig (mkCleanRow 1 "A" 181 10000)).workingPct =
      (((interestRowOf sampleConfig (mkCleanRow 1 "A" 181 10000)).interstWorking : ℤ) : ℚ) *
        sampleConfig.perDayRate ∧
      (interestRowOf sampleConfig (mkCleanRow 1 "A" 181 10000)).interestAmount =
        round4 ((interestRowOf sampleConfig (mkCleanRow 1 "A" 181 10000)).balanceDue *
          ((interestRowOf sampleConfig (mkCleanRow 1 "A" 181 10000)).workingPct / 100))) ∧
    (interestRowOf sampleConfig (mkCleanRow 1 "A" 181 10000)).interstWorking = 31 ∧
    (interestRowOf sampleConfig (mkCleanRow 1 "A" 181 10000)).workingPct = 186 / 100 ∧
    (interestRowOf sampleConfig (mkCleanRow 1 "A" 181 10000)).interestAmount = 186 := by
  have hmem : interestRowOf sampleConfig (mkCleanRow 1 "A" 181 10000) ∈
      calculate_interest sampleConfig [mkCleanRow 1 "A" 181 10000] := by
    have : calculate_interest sampleConfig [mkCleanRow 1 "A" 181 10000] =
        [interestRowOf sampleConfig (mkCleanRow 1 "A" 181 10000)] := rfl
    rw [this]
    exact List.mem_cons_self _ _
  have hmin : min ((181 : ℤ) - 150) 31 = 31 := by norm_num
  have hpct : (interestRowOf sampleConfig (mkCleanRow 1 "A" 181 10000)).workingPct =
      186 / 100 := by
    rw [interestRowOf_pct]
    show ((min ((181 : ℤ) - 150) 31 : ℤ) : ℚ) * (6 / 100) = 186 / 100
    rw [hmin]
    norm_num
  refine ⟨hmem, interest_amount_formula sampleConfig [mkCleanRow 1 "A" 181 10000] _ hmem,
    ?_, hpct, ?_⟩
  · rw [interestRowOf_working]
    exact hmin
  · rw [interestRowOf_amount]
    show round4 ((10000 : ℚ) * (((min ((181 : ℤ) - 150) 31 : ℤ) : ℚ) * (6 / 100) / 100)) = 186
    rw [hmin]
    have harg : (10000 : ℚ) * (((31 : ℤ) : ℚ) * (6 / 100) / 100) = ((186 : ℤ) : ℚ) := by
      push_cast
      norm_num
    rw [harg]
    unfold round4
    have h2 : (((186 : ℤ) : ℚ) * 10000) = (((1860000 : ℤ) : ℤ) : ℚ) := by
      push_cast
      norm_num
    rw [h2, roundHalfEven_intCast]
    norm_num

/-- C5: the currency cleaner evaluated on the specified inputs.  The
source's replace pattern is the three-character mojibake sequence
"â‚¹", not the rupee sign itself, so the genuine rupee input fails to
parse and coerces to `0` instead of `12345`; the mojibake spelling of
the same amount parses as the spec describes, as does a plain
"12,345.00". -/
theorem currency_cleaning_divergence :
    clean_currency_value "₹12,345.00" = 0 ∧
    clean_currency_value "abc" = 0 ∧
    clean_currency_value "" = 0 ∧
    clean_currency_value "â‚¹12,345.00" = 12345 ∧
    clean_currency_value "12,345.00" = 12345 := by
  refine ⟨by decide, by decide, by decide, ?_, ?_⟩
  · have h : scanDecimal (stripStr (removeAll "," (removeAll "â‚¹" "â‚¹12,345.00"))) =
        some ⟨false, 12345, 0, 2⟩ := by decide
    simp only [clean_currency_value, parseDecimal, h, Option.map_some]
    norm_num [decValue]
  · have h : scanDecimal (stripStr (removeAll "," (removeAll "â‚¹" "12,345.00"))) =
        some ⟨false, 12345, 0, 2⟩ := by decide
    simp only [clean_currency_value, parseDecimal, h, Option.map_some]
    norm_num [decValue]

/-- C6: age normalization parses "200 Days" as `200` for every
non-opening-balance row type, and rows typed "Customer Opening Balance"
always get the configured override age, whatever the raw text. -/
theorem age_cleaning_normalization :
    (∀ typ : String, typ ≠ "Customer Opening Balance" →
      ∀ ov : ℚ, clean_age_value typ "200 Days" ov = some 200) ∧
    (∀ (raw : String) (ov : ℚ), clean_age_value "Customer Opening Balance" raw ov = some ov) := by
  constructor
  · intro typ h ov
    unfold clean_age_value
    rw [if_neg h]
    have hscan : scanDecimal (stripStr (removeAll " Days" "200 Days")) =
        some ⟨false, 200, 0, 0⟩ := by decide
    simp only [parseDecimal, hscan, Option.map_some]
    norm_num [decValue]
  · intro raw ov
    unfold clean_age_value
    rw [if_pos rfl]

/-- C6 witness: the two cases at a concrete row type, raw text and
override value. -/
theorem age_cleaning_normalization_witness :
    ("Invoice" ≠ "Customer Opening Balance" ∧
      clean_age_value "Invoice" "200 Days" 300 = some 200) ∧
    clean_age_value "Customer Opening Balance" "17 Days" 300 = some 300 :=
  ⟨⟨by decide, age_cleaning_normalization.1 "Invoice" (by decide) 300⟩,
    age_cleaning_normalization.2 "17 Days" 300⟩

/-! Projections of `mkNote`. -/

theorem mkNote_invoiceNo (pfx today : String) (n : Nat) (k : DebitKey) (t : ℤ) :
    (mkNote pfx today n k t).invoiceNo = pfx ++ zfill 6 (natToString n) := rfl

theorem mkNote_customerID (pfx today : String) (n : Nat) (k : DebitKey) (t : ℤ) :
    (mkNote pfx today n k t).customerID = k.customerNumber := rfl

theorem mkNote_customerName (pfx today : String) (n : Nat) (k : DebitKey) (t : ℤ) :
    (mkNote pfx today n k t).customerName = k.customerName := rfl

theorem mkNote_salesPerson (pfx today : String) (n : Nat) (k : DebitKey) (t : ℤ) :
    (mkNote pfx today n k t).salesPerson = k.salesPerson := rfl


/-! Lemmas about the fallible generator entry point. -/

theorem gen_ok (cfg : GenConfig) (today : String) (rows : List InterestRow) :
    generate_debit_notes cfg today ⟨"Sales person", rows⟩ =
      Except.ok (assembleNotes cfg today rows) := rfl

theorem gen_err (cfg : GenConfig) (today : String) (fr : InterestFrame)
    (h : fr.salespersonColumn ≠ "Sales person") :
    generate_debit_notes cfg today fr = Except.error keyErrorSalesperson := by
  unfold generate_debit_notes group_by_customer
  rw [if_neg h]
  rfl

/-- On the frame the app actually passes — the interest table, column
`Sale Person` — the generator always raises. -/
theorem gen_interest_err (cfg : GenConfig) (today : String) (rows : List InterestRow) :
    generate_debit_notes cfg today (interestFrame rows) = Except.error keyErrorSalesperson := by
  apply gen_err
  show "Sale Person" ≠ "Sales person"
  decide

theorem gen_ok_inv {cfg : GenConfig} {today : String} {rows : List InterestRow}
    {out : List DebitNoteRow}
    (h : generate_debit_notes cfg today ⟨"Sales person", rows⟩ = Except.ok out) :
    out = assembleNotes cfg today rows := by
  rw [gen_ok cfg today rows] at h
  exact (Except.ok.inj h).symm

/-- The multiset of invoice numbers of the assembled table, in the
model's order. -/
theorem assemble_map_invoiceNo (cfg : GenConfig) (today : String) (rows : List InterestRow) :
    (assembleNotes cfg today rows).map (fun r => r.invoiceNo) =
      (List.range (groupKeys rows).length).map
        (fun i => cfg.invoicePfx ++ zfill 6 (natToString (cfg.startingNumber + i))) := by
  apply List.ext_getElem
  · rw [List.length_map, gen_length, List.length_map, List.length_range]
  · intro i h1 h2
    rw [List.getElem_map, List.getElem_map, List.getElem_range]
    have hlen : i < (assembleNotes cfg today rows).length := by
      rw [List.length_map] at h1
      exact h1
    have hi2 : i < (groupKeys rows).length := by
      rw [← gen_length cfg today rows]
      exact hlen
    rw [gen_getElem cfg today rows hi2 hlen, mkNote_invoiceNo]

/-- C1: on every interest table the generator raises
`KeyError('Sales person')` — the interest schema spells the column
`Sale Person` — and produces no debit note rows at all; on a frame that
carries the expected `Sales person` column, grouping is by the full
composite key: one output row per distinct key, and two rows sharing a
customer number but differing in key (e.g. in salesperson) give two
distinct debit note rows, never one merged row. -/
theorem grouping_composite_key (cfg : GenConfig) (today : String) (rows : List InterestRow)
    {r1 r2 : InterestRow} (h1 : r1 ∈ rows) (h2 : r2 ∈ rows)
    (_hnum : r1.customerNumber = r2.customerNumber) (hkey : rowKey r1 ≠ rowKey r2) :
    generate_debit_notes cfg today (interestFrame rows) = Except.error keyErrorSalesperson ∧
    ∀ out, generate_debit_notes cfg today ⟨"Sales person", rows⟩ = Except.ok out →
      out.length = ((rows.map rowKey).dedup).length ∧
      ∃ d1 ∈ out, ∃ d2 ∈ out, d1 ≠ d2 ∧
        d1.customerID = r1.customerNumber ∧ d1.customerName = r1.customerName ∧
        d1.salesPerson = r1.salePerson ∧
        d2.customerID = r2.customerNumber ∧ d2.customerName = r2.customerName ∧
        d2.salesPerson = r2.salePerson := by
  refine ⟨gen_interest_err cfg today rows, ?_⟩
  intro out hout
  have hassm := gen_ok_inv hout
  subst hassm
  have hlen : (assembleNotes cfg today rows).length = (groupKeys rows).length :=
    gen_length cfg today rows
  constructor
  · rw [hlen]
    unfold groupKeys
    rw [List.length_insertionSort]
  · have hk1 : rowKey r1 ∈ groupKeys rows := mem_groupKeys.mpr (List.mem_map_of_mem rowKey h1)
    have hk2 : rowKey r2 ∈ groupKeys rows := mem_groupKeys.mpr (List.mem_map_of_mem rowKey h2)
    obtain ⟨i, hi, hki⟩ := List.mem_iff_getElem.mp hk1
    obtain ⟨j, hj, hkj⟩ := List.mem_iff_getElem.mp hk2
    have hij : i ≠ j := by
      intro he
      subst he
      exact hkey (by rw [← hki, ← hkj])
    have hi2 : i < (assembleNotes cfg today rows).length := by rw [hlen]; exact hi
    have hj2 : j < (assembleNotes cfg today rows).length := by rw [hlen]; exact hj
    refine ⟨(assembleNotes cfg today rows)[i], List.getElem_mem hi2,
      (assembleNotes cfg today rows)[j], List.getElem_mem hj2, ?_, ?_, ?_, ?_, ?_, ?_, ?_⟩
    · rw [gen_getElem cfg today rows hi hi2, gen_getElem cfg today rows hj hj2]
      intro he
      have hinv := congrArg DebitNoteRow.invoiceNo he
      rw [mkNote_invoiceNo, mkNote_invoiceNo] at hinv
      exact hij (Nat.add_left_cancel (invoiceNo_inj hinv))
    · rw [gen_getElem cfg today rows hi hi2, mkNote_customerID, hki]
      rfl
    · rw [gen_getElem cfg today rows hi hi2, mkNote_customerName, hki]
      rfl
    · rw [gen_getElem cfg today rows hi hi2, mkNote_salesPerson, hki]
      rfl
    · rw [gen_getElem cfg today rows hj hj2, mkNote_customerID, hkj]
      rfl
    · rw [gen_getElem cfg today rows hj hj2, mkNote_customerName, hkj]
      rfl
    · rw [gen_getElem cfg today rows hj hj2, mkNote_salesPerson, hkj]
      rfl

/-- C1 witness: two rows with customer number 7 and salespersons "s1",
"s2": the generator errors on the interest frame and, where the key
column resolves, yields two distinct rows. -/
theorem grouping_composite_key_witness :
    (sampleIRow 7 "X" "s1" ∈ [sampleIRow 7 "X" "s1", sampleIRow 7 "X" "s2"]) ∧
    (sampleIRow 7 "X" "s2" ∈ [sampleIRow 7 "X" "s1", sampleIRow 7 "X" "s2"]) ∧
    (sampleIRow 7 "X" "s1").customerNumber = (sampleIRow 7 "X" "s2").customerNumber ∧
    rowKey (sampleIRow 7 "X" "s1") ≠ rowKey (sampleIRow 7 "X" "s2") ∧
    (generate_debit_notes ⟨"P-", 1⟩ "2026-01-01"
        (interestFrame [sampleIRow 7 "X" "s1", sampleIRow 7 "X" "s2"]) =
      Except.error keyErrorSalesperson ∧
      ∀ out, generate_debit_notes ⟨"P-", 1⟩ "2026-01-01"
          ⟨"Sales person", [sampleIRow 7 "X" "s1", sampleIRow 7 "X" "s2"]⟩ = Except.ok out →
        out.length =
          (([sampleIRow 7 "X" "s1", sampleIRow 7 "X" "s2"].map rowKey).dedup).length ∧
        ∃ d1 ∈ out, ∃ d2 ∈ out, d1 ≠ d2 ∧
          d1.customerID = (sampleIRow 7 "X" "s1").customerNumber ∧
          d1.customerName = (sampleIRow 7 "X" "s1").customerName ∧
          d1.salesPerson = (sampleIRow 7 "X" "s1").salePerson ∧
          d2.customerID = (sampleIRow 7 "X" "s2").customerNumber ∧
          d2.customerName = (sampleIRow 7 "X" "s2").customerName ∧
          d2.salesPerson = (sampleIRow 7 "X" "s2").salePerson) :=
  ⟨List.mem_cons_self _ _, List.mem_cons_of_mem _ (List.mem_cons_self _ _), rfl, by decide,
    grouping_composite_key ⟨"P-", 1⟩ "2026-01-01" _
      (List.mem_cons_self _ _) (List.mem_cons_of_mem _ (List.mem_cons_self _ _))
      rfl (by decide)⟩

/-- C2 counterexample: on a concrete non-empty interest table the
generator raises `KeyError('Sales person')` instead of producing the
numbered table the claim describes. -/
theorem invoice_numbers_on_interest_table :
    generate_debit_notes ⟨"CDN/SA-", 311⟩ "2025-12-31"
      (interestFrame [sampleIRow 3 "C" "SP", sampleIRow 1 "A" "SP", sampleIRow 2 "B" "SP"]) =
      Except.error keyErrorSalesperson :=
  gen_interest_err _ _ _

/-- C2 amended: on every interest table the generator raises
`KeyError('Sales person')` and generates nothing.  On a frame carrying
the expected `Sales person` column, the generated table's invoice
numbers are, up to order, exactly `prefix ++ zfill 6 (start + i)` for
`i` below the group count, pairwise distinct, and the customer ids
ascend along the table; when the distinct group keys carry pairwise
distinct customer ids — the only case in which the source's unstable
`sort_values` determines the arrangement — row `i` of the sorted table
carries exactly `prefix ++ zfill 6 (start + i)`. -/
theorem invoice_numbers_sequential (cfg : GenConfig) (today : String) (rows : List InterestRow) :
    (∀ rs : List InterestRow,
      generate_debit_notes cfg today (interestFrame rs) = Except.error keyErrorSalesperson) ∧
    ∀ out, generate_debit_notes cfg today ⟨"Sales person", rows⟩ = Except.ok out →
      (out.map fun r => r.invoiceNo).Perm
        ((List.range out.length).map fun i =>
          cfg.invoicePfx ++ zfill 6 (natToString (cfg.startingNumber + i))) ∧
      (out.map fun r => r.invoiceNo).Nodup ∧
      (∀ (i j : Nat) (hi : i < out.length) (hj : j < out.length), i ≤ j →
        (out.get ⟨i, hi⟩).customerID ≤ (out.get ⟨j, hj⟩).customerID) ∧
      (((groupKeys rows).map DebitKey.customerNumber).Nodup →
        ∀ (i : Nat) (hi : i < out.length),
          (out.get ⟨i, hi⟩).invoiceNo =
            cfg.invoicePfx ++ zfill 6 (natToString (cfg.startingNumber + i))) := by
  refine ⟨fun rs => gen_interest_err cfg today rs, ?_⟩
  intro out hout
  have hassm := gen_ok_inv hout
  subst hassm
  refine ⟨?_, ?_, ?_, ?_⟩
  · rw [assemble_map_invoiceNo, gen_length]
  · rw [assemble_map_invoiceNo]
    exact (List.nodup_range _).map fun a b hab => by
      have := invoiceNo_inj hab
      omega
  · intro i j hi hj hij
    rcases Nat.eq_or_lt_of_le hij with rfl | hlt
    · exact le_refl _
    · have hi2 : i < (groupKeys rows).length := by
        rw [← gen_length cfg today rows]
        exact hi
      have hj2 : j < (groupKeys rows).length := by
        rw [← gen_length cfg today rows]
        exact hj
      rw [List.get_eq_getElem, List.get_eq_getElem,
        gen_getElem cfg today rows hi2 hi, gen_getElem cfg today rows hj2 hj,
        mkNote_customerID, mkNote_customerID]
      have hsorted := sorted_groupKeys rows
      rw [List.Sorted, List.pairwise_iff_getElem] at hsorted
      exact keyLe_customerNumber (hsorted i j hi2 hj2 hlt)
  · intro _hn i hi
    have hi2 : i < (groupKeys rows).length := by
      rw [← gen_length cfg today rows]
      exact hi
    rw [List.get_eq_getElem, gen_getElem cfg today rows hi2 hi, mkNote_invoiceNo]

/-- C2 witness: three groups with distinct customer ids 1, 2, 3,
starting number 311 and prefix "CDN/SA-" yield "CDN/SA-000311",
"CDN/SA-000312", "CDN/SA-000313" in that order, while the same table as
an interest frame makes the generator raise. -/
theorem invoice_numbers_sequential_witness :
    generate_debit_notes ⟨"CDN/SA-", 311⟩ "2025-12-31"
        (interestFrame [sampleIRow 3 "C" "SP", sampleIRow 1 "A" "SP", sampleIRow 2 "B" "SP"]) =
      Except.error keyErrorSalesperson ∧
    generate_debit_notes ⟨"CDN/SA-", 311⟩ "2025-12-31"
        ⟨"Sales person", [sampleIRow 3 "C" "SP", sampleIRow 1 "A" "SP", sampleIRow 2 "B" "SP"]⟩ =
      Except.ok (assembleNotes ⟨"CDN/SA-", 311⟩ "2025-12-31"
        [sampleIRow 3 "C" "SP", sampleIRow 1 "A" "SP", sampleIRow 2 "B" "SP"]) ∧
    ((groupKeys [sampleIRow 3 "C" "SP", sampleIRow 1 "A" "SP", sampleIRow 2 "B" "SP"]).map
      DebitKey.customerNumber).Nodup ∧
    (∀ (i : Nat) (hi : i < (assembleNotes ⟨"CDN/SA-", 311⟩ "2025-12-31"
        [sampleIRow 3 "C" "SP", sampleIRow 1 "A" "SP", sampleIRow 2 "B" "SP"]).length),
      ((assembleNotes ⟨"CDN/SA-", 311⟩ "2025-12-31"
        [sampleIRow 3 "C" "SP", sampleIRow 1 "A" "SP",
          sampleIRow 2 "B" "SP"]).get ⟨i, hi⟩).invoiceNo =
        "CDN/SA-" ++ zfill 6 (natToString (311 + i))) ∧
    ((assembleNotes ⟨"CDN/SA-", 311⟩ "2025-12-31"
        [sampleIRow 3 "C" "SP", sampleIRow 1 "A" "SP", sampleIRow 2 "B" "SP"]).map
      fun r => r.invoiceNo) = ["CDN/SA-000311", "CDN/SA-000312", "CDN/SA-000313"] ∧
    ((assembleNotes ⟨"CDN/SA-", 311⟩ "2025-12-31"
        [sampleIRow 3 "C" "SP", sampleIRow 1 "A" "SP", sampleIRow 2 "B" "SP"]).map
      fun r => r.customerID) = [1, 2, 3] :=
  ⟨(invoice_numbers_sequential ⟨"CDN/SA-", 311⟩ "2025-12-31"
      [sampleIRow 3 "C" "SP", sampleIRow 1 "A" "SP", sampleIRow 2 "B" "SP"]).1 _,
    gen_ok _ _ _,
    by decide,
    fun i hi => ((invoice_numbers_sequential ⟨"CDN/SA-", 311⟩ "2025-12-31"
      [sampleIRow 3 "C" "SP", sampleIRow 1 "A" "SP", sampleIRow 2 "B" "SP"]).2 _
        (gen_ok _ _ _)).2.2.2 (by decide) i hi,
    by decide, by decide⟩

/-- C7 amended: the description literal is hardcoded, not configurable:
`add_debit_note_fields` takes no description parameter and writes the
constant "OD Charges Dec-2025" into `Description`, `Notes` and
`Item Desc` of every draft row; in every successfully generated debit
note table (which requires a frame carrying the generator's
`Sales person` column — on the actual interest tables the generator
raises `KeyError` instead) the `Notes` and `Item Desc` of every row
equal the constant, and the intermediate `Description` column is
dropped by the final projection. -/
theorem description_literal_hardcoded (cfg : GenConfig) (today : String) :
    (∀ (l : List RoundedRow), ∀ d ∈ add_debit_note_fields today l,
      d.description = "OD Charges Dec-2025" ∧ d.notes = "OD Charges Dec-2025" ∧
      d.itemDesc = "OD Charges Dec-2025") ∧
    (∀ (fr : InterestFrame) (out : List DebitNoteRow),
      generate_debit_notes cfg today fr = Except.ok out →
      ∀ r ∈ out, r.notes = "OD Charges Dec-2025" ∧ r.itemDesc = "OD Charges Dec-2025") := by
  constructor
  · intro l d hd
    obtain ⟨g, _, rfl⟩ := List.mem_map.mp hd
    exact ⟨rfl, rfl, rfl⟩
  · intro fr out hout r hr
    obtain ⟨col, rows⟩ := fr
    by_cases hc : col = "Sales person"
    · subst hc
      rw [gen_ok_inv hout] at hr
      obtain ⟨k, _, n, rfl⟩ := gen_mem hr
      exact ⟨rfl, rfl⟩
    · rw [gen_err cfg today ⟨col, rows⟩ hc] at hout
      exact Except.noConfusion hout

/-- C7 counterexample: the draft rows carry the hardwired literal for
every date and total, and two entirely different generator
configurations produce the same `Notes` and `Item Desc` — there is no
configured description anywhere. -/
theorem description_not_configurable :
    ((add_debit_note_fields "2026-02-01"
        (round_totals [⟨rowKey (sampleIRow 1 "A" "SP"), 5⟩])).map fun d => d.description) =
      ["OD Charges Dec-2025"] ∧
    ((add_debit_note_fields "2026-03-01"
        (round_totals [⟨rowKey (sampleIRow 1 "A" "SP"), 7⟩])).map fun d => d.notes) =
      ["OD Charges Dec-2025"] ∧
    ((generate_debit_notes ⟨"X-", 1⟩ "2026-02-01"
        ⟨"Sales person", [sampleIRow 1 "A" "SP"]⟩).map (List.map fun r => r.notes)) =
      Except.ok ["OD Charges Dec-2025"] ∧
    ((generate_debit_notes ⟨"Y-", 999⟩ "2026-03-01"
        ⟨"Sales person", [sampleIRow 1 "A" "SP"]⟩).map (List.map fun r => r.itemDesc)) =
      Except.ok ["OD Charges Dec-2025"] :=
  ⟨rfl, rfl, rfl, rfl⟩

/-- C7 witness: the amended claim at a concrete draft row and a concrete
successfully generated table. -/
theorem description_literal_hardcoded_witness :
    (mkDraft "2026-02-01" (rowKey (sampleIRow 1 "A" "SP")) 5 ∈
      add_debit_note_fields "2026-02-01" [⟨rowKey (sampleIRow 1 "A" "SP"), 5⟩] ∧
      (mkDraft "2026-02-01" (rowKey (sampleIRow 1 "A" "SP")) 5).description =
        "OD Charges Dec-2025" ∧
      (mkDraft "2026-02-01" (rowKey (sampleIRow 1 "A" "SP")) 5).notes = "OD Charges Dec-2025" ∧
      (mkDraft "2026-02-01" (rowKey (sampleIRow 1 "A" "SP")) 5).itemDesc =
        "OD Charges Dec-2025") ∧
    ∃ r ∈ assembleNotes ⟨"X-", 1⟩ "2026-02-01" [sampleIRow 1 "A" "SP"],
      r.notes = "OD Charges Dec-2025" ∧ r.itemDesc = "OD Charges Dec-2025" := by
  have hd : mkDraft "2026-02-01" (rowKey (sampleIRow 1 "A" "SP")) 5 ∈
      add_debit_note_fields "2026-02-01" [⟨rowKey (sampleIRow 1 "A" "SP"), 5⟩] := by
    have he : add_debit_note_fields "2026-02-01" [⟨rowKey (sampleIRow 1 "A" "SP"), 5⟩] =
        [mkDraft "2026-02-01" (rowKey (sampleIRow 1 "A" "SP")) 5] := rfl
    rw [he]
    exact List.mem_cons_self _ _
  have hlen : 0 < (assembleNotes ⟨"X-", 1⟩ "2026-02-01" [sampleIRow 1 "A" "SP"]).length := by
    rw [gen_length]
    decide
  have hmem := List.getElem_mem hlen
  exact ⟨⟨hd, (description_literal_hardcoded ⟨"X-", 1⟩ "2026-02-01").1 _ _ hd⟩,
    ⟨_, hmem, (description_literal_hardcoded ⟨"X-", 1⟩ "2026-02-01").2
      ⟨"Sales person", [sampleIRow 1 "A" "SP"]⟩ _ (gen_ok _ _ _) _ hmem⟩⟩

/-- C8 amended: there is no configuration-time validation or rejection:
the constructors store any parameters, the calculator filters and
derives for every rate, threshold and cap, and the generator's success
or failure does not depend on its configuration at all — in particular
it raises the same `KeyError('Sales person')` on every interest frame
whether the configuration is valid or invalid. -/
theorem config_never_rejected :
    (∀ (rate : ℚ) (thr maxWd : ℤ) (df : List CleanRow),
      (calculate_interest ⟨rate, thr, maxWd⟩ df).length =
        (df.filter fun r => thr < r.age).length) ∧
    (∀ (cfg1 cfg2 : GenConfig) (today1 today2 : String) (fr : InterestFrame),
      (generate_debit_notes cfg1 today1 fr).isOk =
        (generate_debit_notes cfg2 today2 fr).isOk) ∧
    (∀ (cfg : GenConfig) (today : String) (rows : List InterestRow),
      generate_debit_notes cfg today (interestFrame rows) =
        Except.error keyErrorSalesperson) := by
  refine ⟨?_, ?_, fun cfg today rows => gen_interest_err cfg today rows⟩
  · intro rate thr maxWd df
    rw [calculate_interest_length]
    rfl
  · intro cfg1 cfg2 today1 today2 fr
    unfold generate_debit_notes group_by_customer
    split_ifs <;> rfl

/-- C8 counterexample: an invalid configuration is accepted and
processed: a negative per-day rate flows through the calculator and
produces a negative charge, and a starting invoice number below the
valid range is stored, the generator behaving exactly as with a valid
one — the same `KeyError` on an interest frame, and unchecked numbering
from `000000` where the key column resolves. -/
theorem config_invalid_accepted :
    calculate_interest ⟨-(6 / 100), 150, 31⟩ [mkCleanRow 1 "A" 181 10000] =
      [interestRowOf ⟨-(6 / 100), 150, 31⟩ (mkCleanRow 1 "A" 181 10000)] ∧
    (interestRowOf ⟨-(6 / 100), 150, 31⟩ (mkCleanRow 1 "A" 181 10000)).interestAmount =
      -186 ∧
    generate_debit_notes ⟨"P-", 0⟩ "2026-01-01" (interestFrame [sampleIRow 1 "A" "SP"]) =
      Except.error keyErrorSalesperson ∧
    generate_debit_notes ⟨"P-", 311⟩ "2026-01-01" (interestFrame [sampleIRow 1 "A" "SP"]) =
      Except.error keyErrorSalesperson ∧
    ((generate_debit_notes ⟨"P-", 0⟩ "2026-01-01"
        ⟨"Sales person", [sampleIRow 1 "A" "SP"]⟩).map (List.map fun r => r.invoiceNo)) =
      Except.ok ["P-000000"] := by
  refine ⟨rfl, ?_, gen_interest_err _ _ _, gen_interest_err _ _ _, rfl⟩
  rw [interestRowOf_amount]
  have hmin : min ((181 : ℤ) - 150) 31 = 31 := by norm_num
  show round4 ((10000 : ℚ) * (((min ((181 : ℤ) - 150) 31 : ℤ) : ℚ) * -(6 / 100) / 100)) = -186
  rw [hmin]
  have harg : (10000 : ℚ) * (((31 : ℤ) : ℚ) * -(6 / 100) / 100) = ((-186 : ℤ) : ℚ) := by
    push_cast
    norm_num
  rw [harg]
  unfold round4
  have h2 : (((-186 : ℤ) : ℚ) * 10000) = (((-1860000 : ℤ) : ℤ) : ℚ) := by
    push_cast
    norm_num
  rw [h2, roundHalfEven_intCast]
  norm_num

/-- C9: zero surviving rows is not itself an error for the calculator,
which returns the empty (fully typed) interest table; the generator,
however, raises `KeyError('Sales person')` even on an empty interest
frame — the groupby key column is absent from the interest schema
whatever the row count — and returns an empty table only on a frame
carrying its expected `Sales person` column. -/
theorem empty_tables_ok (c : InterestConfig) (df : List CleanRow)
    (h : filter_by_age c df = []) :
    calculate_interest c df = [] ∧
    ∀ (cfg : GenConfig) (today : String),
      generate_debit_notes cfg today (interestFrame []) = Except.error keyErrorSalesperson ∧
      generate_debit_notes cfg today ⟨"Sales person", []⟩ = Except.ok [] := by
  refine ⟨?_, fun cfg today => ⟨gen_interest_err cfg today [], ?_⟩⟩
  · unfold calculate_interest
    rw [h]
    rfl
  · rw [gen_ok]
    rfl

/-- C9 witness: a table whose only row is below the age threshold
filters to empty; the calculator returns the empty table, the generator
errors on the empty interest frame and returns the empty table on the
resolvable frame. -/
theorem empty_tables_ok_witness :
    filter_by_age sampleConfig [mkCleanRow 1 "A" 100 50] = [] ∧
    (calculate_interest sampleConfig [mkCleanRow 1 "A" 100 50] = [] ∧
      ∀ (cfg : GenConfig) (today : String),
        generate_debit_notes cfg today (interestFrame []) =
          Except.error keyErrorSalesperson ∧
        generate_debit_notes cfg today ⟨"Sales person", []⟩ = Except.ok []) :=
  ⟨by decide, empty_tables_ok sampleConfig [mkCleanRow 1 "A" 100 50] (by decide)⟩

/-- C10: `round_totals` rounds each group's summed `Total` to the
nearest integer with ties to even and casts it to an integral type, and
`add_debit_note_fields` copies that rounded total into `SubTotal`,
`Balance`, `Item Total` and `Item Price`; at the ties, `186.5` rounds
to `186` and `187.5` to `188`.  (In the pipeline, each
`GroupedRow.total` is the group's summed interest amount.) -/
theorem totals_rounded_half_even (today : String) (l : List GroupedRow) :
    (∀ d ∈ add_debit_note_fields today (round_totals l),
      d.subTotal = d.total ∧ d.balance = d.total ∧ d.itemTotal = d.total ∧
      d.itemPrice = d.total ∧ ∃ g ∈ l, d.total = roundHalfEven g.total) ∧
    roundHalfEven (186.5 : ℚ) = 186 ∧ roundHalfEven (187.5 : ℚ) = 188 := by
  refine ⟨?_, ?_, ?_⟩
  · intro d hd
    unfold add_debit_note_fields round_totals at hd
    rw [List.map_map] at hd
    obtain ⟨g, hg, rfl⟩ := List.mem_map.mp hd
    exact ⟨rfl, rfl, rfl, rfl, g, hg, rfl⟩
  · have hf : ⌊(186.5 : ℚ)⌋ = 186 := by
      rw [Int.floor_eq_iff]
      constructor <;> norm_num
    simp only [roundHalfEven, hf]
    rw [if_neg (by push_cast; norm_num), if_neg (by push_cast; norm_num),
      if_pos (by decide)]
  · have hf : ⌊(187.5 : ℚ)⌋ = 187 := by
      rw [Int.floor_eq_iff]
      constructor <;> norm_num
    simp only [roundHalfEven, hf]
    rw [if_neg (by push_cast; norm_num), if_neg (by push_cast; norm_num),
      if_neg (by decide)]
    decide

/-- C10 witness: a group totalling exactly 186.5 is rounded to 186 and
the rounded value is copied into the four mirror fields. -/
theorem totals_rounded_half_even_witness :
    (mkDraft "2026-01-01" (rowKey (sampleIRow 1 "A" "SP")) (roundHalfEven (186.5 : ℚ)) ∈
      add_debit_note_fields "2026-01-01"
        (round_totals [⟨rowKey (sampleIRow 1 "A" "SP"), 186.5⟩])) ∧
    ((mkDraft "2026-01-01" (rowKey (sampleIRow 1 "A" "SP"))
        (roundHalfEven (186.5 : ℚ))).subTotal =
      (mkDraft "2026-01-01" (rowKey (sampleIRow 1 "A" "SP"))
        (roundHalfEven (186.5 : ℚ))).total ∧
      ∃ g ∈ [(⟨rowKey (sampleIRow 1 "A" "SP"), 186.5⟩ : GroupedRow)],
        (mkDraft "2026-01-01" (rowKey (sampleIRow 1 "A" "SP"))
          (roundHalfEven (186.5 : ℚ))).total = roundHalfEven g.total) ∧
    (mkDraft "2026-01-01" (rowKey (sampleIRow 1 "A" "SP"))
      (roundHalfEven (186.5 : ℚ))).total = 186 := by
  have hmem : mkDraft "2026-01-01" (rowKey (sampleIRow 1 "A" "SP")) (roundHalfEven (186.5 : ℚ)) ∈
      add_debit_note_fields "2026-01-01"
        (round_totals [⟨rowKey (sampleIRow 1 "A" "SP"), 186.5⟩]) := by
    have he : add_debit_note_fields "2026-01-01"
        (round_totals [⟨rowKey (sampleIRow 1 "A" "SP"), 186.5⟩]) =
        [mkDraft "2026-01-01" (rowKey (sampleIRow 1 "A" "SP")) (roundHalfEven (186.5 : ℚ))] :=
      rfl
    rw [he]
    exact List.mem_cons_self _ _
  have happ := (totals_rounded_half_even "2026-01-01"
    [⟨rowKey (sampleIRow 1 "A" "SP"), 186.5⟩]).1 _ hmem
  refine ⟨hmem, ⟨happ.1, happ.2.2.2.2⟩, ?_⟩
  show roundHalfEven (186.5 : ℚ) = 186
  exact (totals_rounded_half_even "2026-01-01" []).2.1

end ZohoDebitNote
